import Mathlib

/-!
# Verification of the LLMLingua-service compressor pool

Shallow embedding of `service/compressor_pool.py` and `service/models.py`.

Modelling conventions:
* A `PromptCompressor` instance is represented by the constructor arguments
  it was built with (`model_name`, `device_map`, `use_llmlingua2`), since the
  pool treats it as opaque and the only observable of interest is which
  configuration a worker was constructed under.
* The Python object state (`pool_size`, `model_name`, `device_map`,
  `use_llmlingua2`, `pool`, `available`, `in_use`) is the record `PoolState`.
  `available` is a Python list popped from the end (`list.pop()`), so it is a
  `List Nat` and acquisition takes the last element; `in_use` is a Python
  set, so it is a `Finset Nat`.
* Every critical section (code under `with self.lock:`) is one pure function
  on `PoolState`; concurrent executions are interleavings of these atomic
  sections, modelled by the trace semantics `runSys` further down.
* The polling loop of `get_compressor` is modelled with an idealized discrete
  clock: each `time.sleep(0.1)` advances elapsed time by exactly 1/10 second
  and everything else is instantaneous, so the `k`-th loop check happens at
  elapsed time `k/10`.  The loop gets a fuel argument for termination; with
  enough fuel the fuel never runs out.
* Worker construction (`PromptCompressor(...)`) may raise; the external
  environment is modelled by `fails : Nat → Bool` telling whether the `i`-th
  construction call of an initialization raises.
-/

/-- A `lingua.PromptCompressor`, represented by its constructor arguments
(the factory-supplied config tag). -/
structure PromptCompressor where
  model_name : String
  device_map : String
  use_llmlingua2 : Bool
deriving DecidableEq

/-- The mutable attributes of a `CompressorPool` object. -/
structure PoolState where
  pool_size : Nat
  model_name : String
  device_map : String
  use_llmlingua2 : Bool
  pool : List PromptCompressor
  available : List Nat
  in_use : Finset Nat
deriving DecidableEq

/-- The state of a fresh `CompressorPool.__init__` just before it calls
`_initialize_pool`: empty collections. -/
def init_state (n : Nat) (mn dm : String) (u2 : Bool) : PoolState :=
  { pool_size := n, model_name := mn, device_map := dm, use_llmlingua2 := u2,
    pool := [], available := [], in_use := ∅ }

/-- Result of `_initialize_pool`: either it returns normally, or the
exception of a failed construction propagates.  In both cases the object
state at the moment of return/raise is carried (the code performs no cleanup
on the raise path). -/
inductive InitResult where
  | ok (st : PoolState)
  | err (st : PoolState)
deriving DecidableEq

/-- The object state carried by an `InitResult`. -/
def InitResult.state : InitResult → PoolState
  | .ok st => st
  | .err st => st

/-- Whether `_initialize_pool` returned normally. -/
def InitResult.isOk : InitResult → Bool
  | .ok _ => true
  | .err _ => false

/-- The loop body of `_initialize_pool`, iterating `for i in range(pool_size)`
with `rem` iterations remaining.  Each iteration constructs a compressor with
the current configuration, appends it to `pool` and appends `i` to
`available`; if the construction raises (`fails i`), the exception propagates
with the partially extended state left in place. -/
def initialize_pool_aux (fails : Nat → Bool) : Nat → Nat → PoolState → InitResult
  | _, 0, st => .ok st
  | i, rem + 1, st =>
    if fails i then .err st
    else initialize_pool_aux fails (i + 1) rem
      { st with
        pool := st.pool ++ [⟨st.model_name, st.device_map, st.use_llmlingua2⟩],
        available := st.available ++ [i] }

/-- `CompressorPool._initialize_pool`. -/
def initialize_pool (fails : Nat → Bool) (st : PoolState) : InitResult :=
  initialize_pool_aux fails 0 st.pool_size st

/-- The critical section of `get_compressor`: under the lock, if `available`
is non-empty, pop its last element (`list.pop()`), add it to `in_use`, and
return `(self.pool[instance_id], instance_id)` with the new state; otherwise
report nothing available. -/
def tryAcquire (st : PoolState) : Option (Option PromptCompressor × Nat × PoolState) :=
  match st.available.getLast? with
  | none => none
  | some instance_id =>
    some (st.pool[instance_id]?, instance_id,
      { st with
        available := st.available.dropLast,
        in_use := insert instance_id st.in_use })

/-- Outcome of a `get_compressor` call.  `ok` carries the returned worker,
the instance id, the pool state after the acquisition, and the elapsed time
at which it returned; `exhausted` carries the (unchanged) pool state and the
elapsed time at which the "Connection pool exhausted" exception was raised;
`outOfFuel` is the modelling artifact of insufficient fuel. -/
inductive AcquireResult where
  | ok (worker : Option PromptCompressor) (instance_id : Nat) (st : PoolState) (elapsed : ℚ)
  | exhausted (st : PoolState) (elapsed : ℚ)
  | outOfFuel
deriving DecidableEq

/-- The polling loop of `get_compressor`: at iteration `k` (elapsed time
`k/10`, since each `time.sleep(0.1)` contributes 1/10 s), continue while
`elapsed < timeout`; inside, attempt the critical section; on failure sleep
and retry.  When the while-condition fails, raise pool-exhausted. -/
def get_compressor_loop (timeout : ℚ) : Nat → Nat → PoolState → AcquireResult
  | 0, _, _ => .outOfFuel
  | fuel + 1, k, st =>
    if (k : ℚ) / 10 < timeout then
      match tryAcquire st with
      | some (w, id, st') => .ok w id st' ((k : ℚ) / 10)
      | none => get_compressor_loop timeout fuel (k + 1) st
    else
      .exhausted st ((k : ℚ) / 10)

/-- `CompressorPool.get_compressor(timeout)` for a single caller (no
concurrent interference between polls). -/
def get_compressor (st : PoolState) (timeout : ℚ) (fuel : Nat) : AcquireResult :=
  get_compressor_loop timeout fuel 0 st

/-- `CompressorPool.release_compressor(instance_id)`: under the lock, if the
id is in `in_use`, remove it and append it to `available`; otherwise do
nothing. -/
def release_compressor (st : PoolState) (instance_id : Nat) : PoolState :=
  if instance_id ∈ st.in_use then
    { st with
      in_use := st.in_use.erase instance_id,
      available := st.available ++ [instance_id] }
  else st

/-- `CompressorPool.update_model(model_name, device_map)`: update the
configuration attributes, wait until `in_use` is empty (the drain loop),
then clear `pool`/`available`/`in_use` and reinitialize.  In this sequential
model the drain loop terminates only if `in_use` is already empty; `none`
models the call blocking forever. -/
def update_model (fails : Nat → Bool) (st : PoolState)
    (mn dm : Option String) : Option InitResult :=
  let st1 := { st with
    model_name := mn.getD st.model_name,
    device_map := dm.getD st.device_map }
  if st1.in_use = ∅ then
    some (initialize_pool fails
      { st1 with pool := [], available := [], in_use := ∅ })
  else none

/-- The dict returned by `CompressorPool.get_status`. -/
structure Status where
  pool_size : Nat
  available : Nat
  in_use : Nat
  model_name : String
  device_map : String
deriving DecidableEq

/-- `CompressorPool.get_status`: a read-only snapshot taken under the lock. -/
def get_status (st : PoolState) : Status :=
  { pool_size := st.pool_size,
    available := st.available.length,
    in_use := st.in_use.card,
    model_name := st.model_name,
    device_map := st.device_map }

/-- Well-formedness of a pool state: `available` has no duplicates and is
disjoint from `in_use`, the counts add up to the capacity, and every index
is a valid position in `pool`, whose length is the capacity. -/
def WF (st : PoolState) : Prop :=
  st.available.Nodup ∧
  (∀ i ∈ st.available, i ∉ st.in_use) ∧
  st.available.length + st.in_use.card = st.pool_size ∧
  st.pool.length = st.pool_size ∧
  (∀ i ∈ st.available, i < st.pool_size) ∧
  (∀ i ∈ st.in_use, i < st.pool_size)

/-! ## Trace semantics for interleaved critical sections

Concurrent callers interleave the lock-protected critical sections.  An
`Event.acquire` is one execution of `get_compressor`'s critical section by
some caller (a no-op when nothing is available — that caller just sleeps and
will try again as a later event); an `Event.release id` is a call of
`release_compressor id`.  Alongside the pool state we track the outstanding
tickets (`holders`) and log every worker handed out (`acquired`). -/

inductive Event where
  | acquire
  | release (instance_id : Nat)
deriving DecidableEq

structure SysState where
  pool : PoolState
  holders : List Nat
  acquired : List (Option PromptCompressor)
deriving DecidableEq

def sysStep (s : SysState) : Event → SysState
  | .acquire =>
    match tryAcquire s.pool with
    | some (w, id, st') =>
      { pool := st', holders := id :: s.holders, acquired := s.acquired ++ [w] }
    | none => s
  | .release id =>
    { pool := release_compressor s.pool id,
      holders := s.holders.erase id,
      acquired := s.acquired }

def runSys (s : SysState) : List Event → SysState
  | [] => s
  | e :: es => runSys (sysStep s e) es

/-- System-level invariant: the pool state is well-formed and the outstanding
tickets are exactly the in-use indices, each held once. -/
def SysWF (s : SysState) : Prop :=
  WF s.pool ∧
  s.holders.Nodup ∧
  (∀ i ∈ s.holders, i ∈ s.pool.in_use) ∧
  (∀ i ∈ s.pool.in_use, i ∈ s.holders)

instance : DecidablePred WF := fun st => by
  unfold WF
  infer_instance

instance : DecidablePred SysWF := fun s => by
  unfold SysWF
  infer_instance

/-! ## `service/models.py` -/

/-- The `CompressRequest` pydantic model (the fields `build_compression_params`
inspects; Python floats are modelled as rationals, Python ints as integers,
`None` as `Option.none`). -/
structure CompressRequest where
  rate : Option ℚ
  target_token : Option ℤ
  target_context_level_rate : Option ℚ
  context_level_rate : Option ℚ
  context_level_target_token : Option ℤ
  chunk_end_tokens : Option String
deriving DecidableEq

/-- The params dict built by `build_compression_params`: a key is present
iff the corresponding field is `some`. -/
structure CompressionParams where
  rate : Option ℚ
  target_token : Option ℤ
  target_context_level_rate : Option ℚ
  context_level_rate : Option ℚ
  context_level_target_token : Option ℤ
  chunk_end_tokens : Option String
deriving DecidableEq

/-- `build_compression_params(request)`. -/
def build_compression_params (r : CompressRequest) : CompressionParams where
  rate :=
    match r.rate with
    | some x => if 0 < x ∧ x ≤ 1 then some x else none
    | none => none
  target_token :=
    match r.target_token with
    | some x => if 0 < x then some x else none
    | none => none
  target_context_level_rate :=
    match r.target_context_level_rate with
    | some x => if 0 < x then some x else none
    | none => none
  context_level_rate :=
    match r.context_level_rate with
    | some x => if 0 < x ∧ x ≤ 1 then some x else none
    | none => none
  context_level_target_token :=
    match r.context_level_target_token with
    | some x => if 0 < x then some x else none
    | none => none
  chunk_end_tokens :=
    match r.chunk_end_tokens with
    | some x => if x ≠ "" then some x else none
    | none => none

example :
    initialize_pool (fun _ => false) (init_state 2 "m" "cpu" true) =
      .ok { pool_size := 2, model_name := "m", device_map := "cpu",
            use_llmlingua2 := true,
            pool := [⟨"m", "cpu", true⟩, ⟨"m", "cpu", true⟩],
            available := [0, 1], in_use := ∅ } := by
  decide

example :
    initialize_pool (fun i => i == 1) (init_state 2 "m" "cpu" true) =
      .err { pool_size := 2, model_name := "m", device_map := "cpu",
             use_llmlingua2 := true,
             pool := [⟨"m", "cpu", true⟩],
             available := [0], in_use := ∅ } := by
  decide

/-! ## Helper lemmas -/

theorem tryAcquire_eq_none (st : PoolState) (h : st.available = []) :
    tryAcquire st = none := by
  simp [tryAcquire, h]

theorem tryAcquire_spec (st : PoolState) (w : Option PromptCompressor)
    (id : Nat) (st' : PoolState)
    (hwf : WF st) (h : tryAcquire st = some (w, id, st')) :
    st.available = st'.available ++ [id] ∧
    st'.in_use = insert id st.in_use ∧
    id ∉ st.in_use ∧
    w = st.pool[id]? ∧ w.isSome = true ∧
    st'.pool = st.pool ∧ st'.pool_size = st.pool_size ∧
    st'.model_name = st.model_name ∧ st'.device_map = st.device_map ∧
    st'.use_llmlingua2 = st.use_llmlingua2 ∧
    WF st' := by
  obtain ⟨hnd, hdisj, hcount, hlen, hav, hiu⟩ := hwf
  rcases List.eq_nil_or_concat st.available with hnil | ⟨l, a, hla⟩
  · rw [tryAcquire_eq_none st hnil] at h; exact absurd h (by simp)
  · rw [List.concat_eq_append] at hla
    rw [tryAcquire, hla, List.getLast?_concat, List.dropLast_concat] at h
    obtain ⟨hw, hid, hst'⟩ := by simpa using h
    subst hid
    have hmem : a ∈ st.available := by rw [hla]; simp
    have hidnotin : a ∉ st.in_use := hdisj a hmem
    have hidlt : a < st.pool_size := hav a hmem
    have hnotl : a ∉ l := by
      rw [hla, List.nodup_append] at hnd
      intro hc
      exact hnd.2.2 hc (by simp)
    have hlnd : l.Nodup := by
      rw [hla, List.nodup_append] at hnd
      exact hnd.1
    refine ⟨?_, ?_, hidnotin, hw.symm, ?_, ?_, ?_, ?_, ?_, ?_, ?_⟩
    · rw [hla, ← hst']
    · rw [← hst']
    · rw [← hw, List.getElem?_eq_getElem (by omega : a < st.pool.length)]
      simp
    · rw [← hst']
    · rw [← hst']
    · rw [← hst']
    · rw [← hst']
    · rw [← hst']
    · subst hst'
      refine ⟨hlnd, ?_, ?_, hlen, ?_, ?_⟩
      · intro i hi
        simp only [Finset.mem_insert, not_or]
        constructor
        · intro hc; subst hc; exact hnotl hi
        · exact hdisj i (by rw [hla]; exact List.mem_append_left _ hi)
      · have hcard : (insert a st.in_use).card = st.in_use.card + 1 :=
          Finset.card_insert_of_not_mem hidnotin
        have hlav : st.available.length = l.length + 1 := by rw [hla]; simp
        simp only [hcard]
        omega
      · intro i hi
        exact hav i (by rw [hla]; exact List.mem_append_left _ hi)
      · intro i hi
        rcases Finset.mem_insert.mp hi with hc | hc
        · subst hc; exact hidlt
        · exact hiu i hc

theorem release_compressor_not_mem (st : PoolState) (id : Nat)
    (h : id ∉ st.in_use) : release_compressor st id = st := by
  simp [release_compressor, h]

theorem release_compressor_wf (st : PoolState) (id : Nat) (hwf : WF st) :
    WF (release_compressor st id) := by
  obtain ⟨hnd, hdisj, hcount, hlen, hav, hiu⟩ := hwf
  by_cases hm : id ∈ st.in_use
  · have hidnotav : id ∉ st.available := fun hc => hdisj id hc hm
    have hidlt : id < st.pool_size := hiu id hm
    simp only [release_compressor, hm, if_pos]
    refine ⟨?_, ?_, ?_, hlen, ?_, ?_⟩
    · rw [List.nodup_append]
      exact ⟨hnd, List.nodup_singleton id, by
        intro i hi hj
        simp only [List.mem_singleton] at hj
        subst hj
        exact hidnotav hi⟩
    · intro i hi
      rcases List.mem_append.mp hi with hc | hc
      · intro hc2
        exact hdisj i hc (Finset.mem_of_mem_erase hc2)
      · simp only [List.mem_singleton] at hc
        subst hc
        exact Finset.not_mem_erase i _
    · have hcard : (st.in_use.erase id).card = st.in_use.card - 1 :=
        Finset.card_erase_of_mem hm
      have hpos : 0 < st.in_use.card := Finset.card_pos.mpr ⟨id, hm⟩
      simp only [List.length_append, List.length_singleton, hcard]
      omega
    · intro i hi
      rcases List.mem_append.mp hi with hc | hc
      · exact hav i hc
      · simp only [List.mem_singleton] at hc
        subst hc
        exact hidlt
    · intro i hi
      exact hiu i (Finset.mem_of_mem_erase hi)
  · rw [release_compressor_not_mem st id hm]
    exact ⟨hnd, hdisj, hcount, hlen, hav, hiu⟩

theorem sysStep_wf (s : SysState) (e : Event) (h : SysWF s) :
    SysWF (sysStep s e) := by
  obtain ⟨hwf, hnd, hsub, hsup⟩ := h
  cases e with
  | acquire =>
    cases hta : tryAcquire s.pool with
    | none => simpa [sysStep, hta] using ⟨hwf, hnd, hsub, hsup⟩
    | some r =>
      obtain ⟨w, id, st'⟩ := r
      obtain ⟨_, hins, hnotin, _, _, _, _, _, _, _, hwf'⟩ :=
        tryAcquire_spec s.pool w id st' hwf hta
      have hidnoth : id ∉ s.holders := fun hc => hnotin (hsub id hc)
      refine ⟨?_, ?_, ?_, ?_⟩ <;> simp only [sysStep, hta]
      · exact hwf'
      · exact List.nodup_cons.mpr ⟨hidnoth, hnd⟩
      · intro i hi
        rw [hins]
        rcases List.mem_cons.mp hi with hc | hc
        · subst hc; exact Finset.mem_insert_self i _
        · exact Finset.mem_insert_of_mem (hsub i hc)
      · intro i hi
        rw [hins] at hi
        rcases Finset.mem_insert.mp hi with hc | hc
        · subst hc; exact List.mem_cons_self i _
        · exact List.mem_cons_of_mem _ (hsup i hc)
  | release id =>
    by_cases hm : id ∈ s.pool.in_use
    · refine ⟨?_, ?_, ?_, ?_⟩ <;> simp only [sysStep]
      · exact release_compressor_wf s.pool id hwf
      · exact hnd.erase id
      · intro i hi
        rw [hnd.mem_erase_iff] at hi
        simp only [release_compressor, hm, if_pos, Finset.mem_erase]
        exact ⟨hi.1, hsub i hi.2⟩
      · intro i hi
        simp only [release_compressor, hm, if_pos, Finset.mem_erase] at hi
        rw [hnd.mem_erase_iff]
        exact ⟨hi.1, hsup i hi.2⟩
    · have hnh : id ∉ s.holders := fun hc => hm (hsub id hc)
      refine ⟨?_, ?_, ?_, ?_⟩ <;>
        simp only [sysStep, release_compressor_not_mem s.pool id hm,
          List.erase_of_not_mem hnh]
      · exact hwf
      · exact hnd
      · exact hsub
      · exact hsup

theorem runSys_wf (es : List Event) (s : SysState) (h : SysWF s) :
    SysWF (runSys s es) := by
  induction es generalizing s with
  | nil => exact h
  | cons e es ih => exact ih (sysStep s e) (sysStep_wf s e h)

theorem sysStep_pool_list (s : SysState) (e : Event) :
    (sysStep s e).pool.pool = s.pool.pool := by
  cases e with
  | acquire =>
    cases hta : tryAcquire s.pool with
    | none => simp [sysStep, hta]
    | some r =>
      obtain ⟨w, id, st'⟩ := r
      rcases List.eq_nil_or_concat s.pool.available with hnil | ⟨l, a, hla⟩
      · rw [tryAcquire_eq_none s.pool hnil] at hta; exact absurd hta (by simp)
      · rw [List.concat_eq_append] at hla
        rw [tryAcquire, hla, List.getLast?_concat] at hta
        obtain ⟨_, _, hst'⟩ := by simpa using hta
        simp [sysStep, tryAcquire, hla, List.getLast?_concat, ← hst']
  | release id =>
    simp only [sysStep, release_compressor]
    split <;> rfl

theorem sysStep_acquired (s : SysState) (e : Event) (hwf : SysWF s) :
    (sysStep s e).acquired = s.acquired ∨
    ∃ wk, wk ∈ s.pool.pool ∧ (sysStep s e).acquired = s.acquired ++ [some wk] := by
  cases e with
  | acquire =>
    cases hta : tryAcquire s.pool with
    | none => left; simp [sysStep, hta]
    | some r =>
      obtain ⟨w, id, st'⟩ := r
      obtain ⟨_, _, _, hw, hsome, _, _, _, _, _, _⟩ :=
        tryAcquire_spec s.pool w id st' hwf.1 hta
      right
      obtain ⟨wk, hwk⟩ := Option.isSome_iff_exists.mp hsome
      refine ⟨wk, ?_, ?_⟩
      · have hwk' : s.pool.pool[id]? = some wk := by rw [← hw]; exact hwk
        have hlt : id < s.pool.pool.length := by
          by_contra hge
          rw [List.getElem?_eq_none (le_of_not_lt hge)] at hwk'
          exact absurd hwk' (by simp)
        rw [List.getElem?_eq_getElem hlt] at hwk'
        obtain rfl : s.pool.pool[id] = wk := by simpa using hwk'
        exact List.getElem_mem hlt
      · simp [sysStep, hta, hwk]
  | release id => left; rfl

theorem runSys_acquired (Q : PromptCompressor → Prop) (es : List Event) :
    ∀ s : SysState, SysWF s →
      (∀ wk ∈ s.pool.pool, Q wk) →
      (∀ ow ∈ s.acquired, ∃ wk, ow = some wk ∧ Q wk) →
      ∀ ow ∈ (runSys s es).acquired, ∃ wk, ow = some wk ∧ Q wk := by
  induction es with
  | nil => intro s _ _ hacq; exact hacq
  | cons e es ih =>
    intro s hwf hpool hacq
    refine ih (sysStep s e) (sysStep_wf s e hwf) ?_ ?_
    · rw [sysStep_pool_list]
      exact hpool
    · rcases sysStep_acquired s e hwf with hsame | ⟨wk, hwkmem, hext⟩
      · rw [hsame]; exact hacq
      · rw [hext]
        intro ow how
        rcases List.mem_append.mp how with hc | hc
        · exact hacq ow hc
        · simp only [List.mem_singleton] at hc
          subst hc
          exact ⟨wk, rfl, hpool wk hwkmem⟩

theorem initialize_pool_aux_ok (fails : Nat → Bool) :
    ∀ (rem i : Nat) (st : PoolState), (∀ k < rem, fails (i + k) = false) →
      initialize_pool_aux fails i rem st = .ok
        { st with
          pool := st.pool ++
            List.replicate rem ⟨st.model_name, st.device_map, st.use_llmlingua2⟩,
          available := st.available ++ List.range' i rem } := by
  intro rem
  induction rem with
  | zero => intro i st _; simp [initialize_pool_aux]
  | succ rem ih =>
    intro i st h
    have h0 : fails i = false := by simpa using h 0 (Nat.succ_pos rem)
    rw [initialize_pool_aux, h0]
    simp only [Bool.false_eq_true, if_false]
    rw [ih (i + 1) _ (fun k hk => by
      have := h (k + 1) (by omega)
      simpa [Nat.add_assoc, Nat.add_comm 1 k] using this)]
    simp [List.range'_succ, List.replicate_succ]

theorem initialize_pool_aux_err (fails : Nat → Bool) :
    ∀ (rem j i : Nat) (st : PoolState), j < rem →
      (∀ k < j, fails (i + k) = false) → fails (i + j) = true →
      initialize_pool_aux fails i rem st = .err
        { st with
          pool := st.pool ++
            List.replicate j ⟨st.model_name, st.device_map, st.use_llmlingua2⟩,
          available := st.available ++ List.range' i j } := by
  intro rem
  induction rem with
  | zero => intro j i st hj; omega
  | succ rem ih =>
    intro j i st hj hfk hfj
    cases j with
    | zero =>
      rw [initialize_pool_aux, show fails i = true by simpa using hfj]
      simp
    | succ j =>
      have h0 : fails i = false := by simpa using hfk 0 (Nat.succ_pos j)
      rw [initialize_pool_aux, h0]
      simp only [Bool.false_eq_true, if_false]
      rw [ih j (i + 1) _ (by omega)
        (fun k hk => by
          have := hfk (k + 1) (by omega)
          simpa [Nat.add_assoc, Nat.add_comm 1 k] using this)
        (by
          have : i + (j + 1) = i + 1 + j := by omega
          rw [← this]; exact hfj)]
      simp [List.range'_succ, List.replicate_succ]

theorem get_compressor_loop_ok (timeout : ℚ) :
    ∀ (fuel k : Nat) (st : PoolState) (w : Option PromptCompressor)
      (id : Nat) (st' : PoolState) (t : ℚ),
      get_compressor_loop timeout fuel k st = .ok w id st' t →
      tryAcquire st = some (w, id, st') := by
  intro fuel
  induction fuel with
  | zero => intro k st w id st' t h; exact absurd h (by simp [get_compressor_loop])
  | succ fuel ih =>
    intro k st w id st' t h
    rw [get_compressor_loop] at h
    by_cases hc : (k : ℚ) / 10 < timeout
    · rw [if_pos hc] at h
      cases hta : tryAcquire st with
      | none =>
        rw [hta] at h
        have := ih (k + 1) st w id st' t h
        rwa [hta] at this
      | some r =>
        obtain ⟨w', id', st''⟩ := r
        rw [hta] at h
        obtain ⟨h1, h2, h3, _⟩ := by simpa using h
        rw [h1, h2, h3]
    · rw [if_neg hc] at h
      exact absurd h (by simp)

theorem get_compressor_loop_exhausted (timeout : ℚ) :
    ∀ (fuel k : Nat) (st st' : PoolState) (t : ℚ),
      get_compressor_loop timeout fuel k st = .exhausted st' t →
      st' = st := by
  intro fuel
  induction fuel with
  | zero => intro k st st' t h; exact absurd h (by simp [get_compressor_loop])
  | succ fuel ih =>
    intro k st st' t h
    rw [get_compressor_loop] at h
    by_cases hc : (k : ℚ) / 10 < timeout
    · rw [if_pos hc] at h
      cases hta : tryAcquire st with
      | none => rw [hta] at h; exact ih (k + 1) st st' t h
      | some r =>
        obtain ⟨w', id', st''⟩ := r
        rw [hta] at h
        exact absurd h (by simp)
    · rw [if_neg hc] at h
      obtain ⟨h1, _⟩ := by simpa using h
      rw [h1]

theorem get_compressor_loop_empty (timeout : ℚ) (st : PoolState)
    (hav : st.available = []) :
    ∀ (fuel k : Nat), (k : ℤ) ≤ ⌈timeout * 10⌉ →
      (⌈timeout * 10⌉.toNat < k + fuel) →
      get_compressor_loop timeout fuel k st =
        .exhausted st ((⌈timeout * 10⌉ : ℚ) / 10) := by
  intro fuel
  induction fuel with
  | zero =>
    intro k hk hfuel
    have : (k : ℤ) ≤ ⌈timeout * 10⌉ := hk
    have hk' : k ≤ ⌈timeout * 10⌉.toNat := by omega
    omega
  | succ fuel ih =>
    intro k hk hfuel
    rw [get_compressor_loop]
    by_cases hc : (k : ℚ) / 10 < timeout
    · have hklt : (k : ℤ) < ⌈timeout * 10⌉ := by
        rw [Int.lt_ceil]
        push_cast
        linarith [hc]
      rw [if_pos hc, tryAcquire_eq_none st hav]
      exact ih (k + 1) (by omega) (by
        have : k < ⌈timeout * 10⌉.toNat := by omega
        omega)
    · have hkge : ⌈timeout * 10⌉ ≤ (k : ℤ) := by
        by_contra hlt
        push_neg at hlt
        rw [Int.lt_ceil] at hlt
        apply hc
        rw [div_lt_iff₀ (by norm_num : (0:ℚ) < 10)]
        exact_mod_cast hlt
      have hkeq : (k : ℤ) = ⌈timeout * 10⌉ := le_antisymm hk hkge
      rw [if_neg hc]
      congr 1
      rw [← hkeq]
      push_cast
      ring

/-- The pool state produced by clearing all collections and fully
successfully re-running `_initialize_pool` under the configuration updated
by `update_model(mn, dm)`. -/
def rebuilt_state (st : PoolState) (mn dm : Option String) : PoolState :=
  { pool_size := st.pool_size,
    model_name := mn.getD st.model_name,
    device_map := dm.getD st.device_map,
    use_llmlingua2 := st.use_llmlingua2,
    pool := List.replicate st.pool_size
      ⟨mn.getD st.model_name, dm.getD st.device_map, st.use_llmlingua2⟩,
    available := List.range' 0 st.pool_size,
    in_use := ∅ }

theorem update_model_blocked (fails : Nat → Bool) (st : PoolState)
    (mn dm : Option String) (hiu : st.in_use ≠ ∅) :
    update_model fails st mn dm = none := by
  simp [update_model, hiu]

theorem update_model_ok (st : PoolState) (mn dm : Option String)
    (hiu : st.in_use = ∅) :
    update_model (fun _ => false) st mn dm =
      some (.ok (rebuilt_state st mn dm)) := by
  simp only [update_model, hiu, if_pos]
  rw [initialize_pool]
  rw [initialize_pool_aux_ok (fun _ => false) st.pool_size 0 _ (fun k _ => rfl)]
  simp [rebuilt_state]

theorem rebuilt_state_wf (st : PoolState) (mn dm : Option String) :
    WF (rebuilt_state st mn dm) := by
  refine ⟨List.nodup_range' 0 st.pool_size, ?_, ?_, ?_, ?_, ?_⟩
  · intro i _ hc
    exact absurd hc (Finset.not_mem_empty i)
  · simp [rebuilt_state, List.length_range' 0 1 st.pool_size]
  · simp [rebuilt_state]
  · intro i hi
    simp only [rebuilt_state] at hi ⊢
    have := List.mem_range'_1.mp hi
    omega
  · intro i hi
    exact absurd hi (Finset.not_mem_empty i)

/-! ## Witness states -/

def wC : PromptCompressor := ⟨"m", "cpu", true⟩

def cpool1 : PoolState := ⟨1, "m", "cpu", true, [wC], [0], ∅⟩

def cpool1_acq : PoolState := ⟨1, "m", "cpu", true, [wC], [], {0}⟩

def cpool4 : PoolState := ⟨4, "m", "cpu", true, List.replicate 4 wC, [0, 1, 2], {3}⟩

def cpool0 : PoolState := ⟨0, "m", "cpu", true, [], [], ∅⟩

def csys2 : SysState := ⟨⟨2, "m", "cpu", true, [wC, wC], [0, 1], ∅⟩, [], []⟩

/-! ## Claims -/

/-- C1: for every sequence of acquire (`get_compressor` critical sections)
and release (`release_compressor`) operations starting from a consistent
system state, at no point do two holders hold the same slot index
simultaneously: the list of outstanding tickets (extended by every
successful acquire, trimmed by release) never contains a duplicate, so an
index returned by a successful acquire is not returned by another acquire
until it has been released. -/
theorem claim_C1 (s0 : SysState) (h : SysWF s0) (es : List Event) :
    (runSys s0 es).holders.Nodup :=
  (runSys_wf es s0 h).2.1

theorem claim_C1_witness :
    (runSys csys2 [Event.acquire, Event.acquire, Event.release 1,
      Event.acquire]).holders.Nodup :=
  claim_C1 csys2 (by decide)
    [Event.acquire, Event.acquire, Event.release 1, Event.acquire]

/-- C2: after every completed pool operation (any interleaving of acquire
and release critical sections, and any completed `update_model` whose
rebuild succeeds), the available list and the in-use set are disjoint, the
available list has no duplicates, and `|available| + |in_use| = pool_size`:
no index is leaked or duplicated. -/
theorem claim_C2 :
    (∀ (s0 : SysState), SysWF s0 → ∀ (es : List Event),
      (∀ i ∈ (runSys s0 es).pool.available, i ∉ (runSys s0 es).pool.in_use) ∧
      (runSys s0 es).pool.available.Nodup ∧
      (runSys s0 es).pool.available.length + (runSys s0 es).pool.in_use.card =
        (runSys s0 es).pool.pool_size) ∧
    (∀ (st : PoolState) (mn dm : Option String) (res : InitResult),
      update_model (fun _ => false) st mn dm = some res →
      res.isOk = true ∧
      (∀ i ∈ res.state.available, i ∉ res.state.in_use) ∧
      res.state.available.Nodup ∧
      res.state.available.length + res.state.in_use.card =
        res.state.pool_size) := by
  constructor
  · intro s0 h es
    obtain ⟨⟨hnd, hdisj, hcount, _, _, _⟩, _, _, _⟩ := runSys_wf es s0 h
    exact ⟨hdisj, hnd, hcount⟩
  · intro st mn dm res hupd
    by_cases hiu : st.in_use = ∅
    · rw [update_model_ok st mn dm hiu] at hupd
      obtain rfl : InitResult.ok (rebuilt_state st mn dm) = res := by
        simpa using hupd
      obtain ⟨hnd, hdisj, hcount, _, _, _⟩ := rebuilt_state_wf st mn dm
      exact ⟨rfl, hdisj, hnd, hcount⟩
    · rw [update_model_blocked (fun _ => false) st mn dm hiu] at hupd
      exact absurd hupd (by simp)

theorem claim_C2_witness :
    ((∀ i ∈ (runSys csys2 [Event.acquire]).pool.available,
        i ∉ (runSys csys2 [Event.acquire]).pool.in_use) ∧
      (runSys csys2 [Event.acquire]).pool.available.Nodup ∧
      (runSys csys2 [Event.acquire]).pool.available.length +
        (runSys csys2 [Event.acquire]).pool.in_use.card =
        (runSys csys2 [Event.acquire]).pool.pool_size) ∧
    ((InitResult.ok (rebuilt_state cpool1 (some "n") none)).isOk = true ∧
      (∀ i ∈ (InitResult.ok (rebuilt_state cpool1 (some "n") none)).state.available,
        i ∉ (InitResult.ok (rebuilt_state cpool1 (some "n") none)).state.in_use) ∧
      (InitResult.ok (rebuilt_state cpool1 (some "n") none)).state.available.Nodup ∧
      (InitResult.ok (rebuilt_state cpool1 (some "n") none)).state.available.length +
        (InitResult.ok (rebuilt_state cpool1 (some "n") none)).state.in_use.card =
        (InitResult.ok (rebuilt_state cpool1 (some "n") none)).state.pool_size) :=
  ⟨claim_C2.1 csys2 (by decide) [Event.acquire],
   claim_C2.2 cpool1 (some "n") none
     (InitResult.ok (rebuilt_state cpool1 (some "n") none)) (by decide)⟩

/-- C3 counterexample: with a pool of size 2 whose second worker
construction fails, `_initialize_pool` does propagate the error
(`isOk = false`), but the worker collection and the available index set do
retain the partially constructed state (`pool = [worker 0]`,
`available = [0]`), contrary to the claim that they contain no partially
constructed state. -/
theorem claim_C3_counterexample :
    (initialize_pool (fun i => i == 1) (init_state 2 "m" "cpu" true)).isOk
      = false ∧
    (initialize_pool (fun i => i == 1) (init_state 2 "m" "cpu" true)).state.pool
      = [⟨"m", "cpu", true⟩] ∧
    (initialize_pool (fun i => i == 1)
      (init_state 2 "m" "cpu" true)).state.available = [0] := by
  decide

/-- C3 (amended): if the `j`-th worker construction fails during pool
initialization (the earlier ones succeeding), the whole initialization
fails and the error propagates to the caller; however the `j` successfully
constructed workers and their indices `0..j-1` are retained in the worker
collection and the available index set (no cleanup on the failure path). -/
theorem claim_C3_amended (n : Nat) (mn dm : String) (u2 : Bool)
    (fails : Nat → Bool) (j : Nat) (hj : j < n)
    (hbefore : ∀ k < j, fails k = false) (hfail : fails j = true) :
    initialize_pool fails (init_state n mn dm u2) = .err
      { pool_size := n, model_name := mn, device_map := dm,
        use_llmlingua2 := u2,
        pool := List.replicate j ⟨mn, dm, u2⟩,
        available := List.range' 0 j, in_use := ∅ } := by
  rw [initialize_pool]
  rw [show (init_state n mn dm u2).pool_size = n from rfl]
  rw [initialize_pool_aux_err fails n j 0 (init_state n mn dm u2) hj
    (fun k hk => by simpa using hbefore k hk) (by simpa using hfail)]
  simp [init_state]

theorem claim_C3_amended_witness :
    initialize_pool (fun i => i == 1) (init_state 2 "m" "cpu" true) = .err
      { pool_size := 2, model_name := "m", device_map := "cpu",
        use_llmlingua2 := true,
        pool := List.replicate 1 ⟨"m", "cpu", true⟩,
        available := List.range' 0 1, in_use := ∅ } :=
  claim_C3_amended 2 "m" "cpu" true (fun i => i == 1) 1 (by decide)
    (by decide) (by decide)

/-- C4: a completed `get_compressor` call on a well-formed pool either
succeeds — moving exactly one index (the last of `available`) from the
available list into the in-use set, an index no other caller holds, and
returning the worker stored at that index together with the index as
ticket, with well-formedness preserved — or raises pool-exhausted, leaving
the pool state (in particular the available and in-use sets) unchanged and
handing the caller no worker. -/
theorem claim_C4 (st : PoolState) (timeout : ℚ) (fuel : Nat) (hwf : WF st) :
    (∀ (w : Option PromptCompressor) (id : Nat) (st' : PoolState) (t : ℚ),
      get_compressor st timeout fuel = .ok w id st' t →
      st.available = st'.available ++ [id] ∧
      st'.in_use = insert id st.in_use ∧
      id ∉ st.in_use ∧
      w = st.pool[id]? ∧ w.isSome = true ∧
      st'.pool = st.pool ∧
      st'.available.length + 1 = st.available.length ∧
      WF st') ∧
    (∀ (st' : PoolState) (t : ℚ),
      get_compressor st timeout fuel = .exhausted st' t → st' = st) := by
  constructor
  · intro w id st' t h
    have hta := get_compressor_loop_ok timeout fuel 0 st w id st' t h
    obtain ⟨hsplit, hins, hnotin, hw, hsome, hpool, _, _, _, _, hwf'⟩ :=
      tryAcquire_spec st w id st' hwf hta
    refine ⟨hsplit, hins, hnotin, hw, hsome, hpool, ?_, hwf'⟩
    rw [hsplit]
    simp
  · intro st' t h
    exact get_compressor_loop_exhausted timeout fuel 0 st st' t h

theorem claim_C4_witness :
    cpool1.available = cpool1_acq.available ++ [0] ∧
    cpool1_acq.in_use = insert 0 cpool1.in_use ∧
    0 ∉ cpool1.in_use ∧
    (some wC : Option PromptCompressor) = cpool1.pool[0]? ∧
    (some wC : Option PromptCompressor).isSome = true ∧
    cpool1_acq.pool = cpool1.pool ∧
    cpool1_acq.available.length + 1 = cpool1.available.length ∧
    WF cpool1_acq :=
  (claim_C4 cpool1 1 1 (by decide)).1 (some wC) 0 cpool1_acq 0 (by
    rw [get_compressor, get_compressor_loop]
    norm_num
    rw [show tryAcquire cpool1 = some (some wC, 0, cpool1_acq) by rfl])

/-- C5: `release_compressor` called with a ticket that is not currently in
the in-use set is a no-op (the state, in particular the available and
in-use sets, is unchanged; being a total function it raises nothing), and
releasing the same ticket twice in a row has no effect the second time. -/
theorem claim_C5 (st : PoolState) (id : Nat) :
    (id ∉ st.in_use → release_compressor st id = st) ∧
    release_compressor (release_compressor st id) id =
      release_compressor st id := by
  refine ⟨release_compressor_not_mem st id, ?_⟩
  by_cases hm : id ∈ st.in_use
  · apply release_compressor_not_mem
    simp only [release_compressor, hm, if_pos]
    exact Finset.not_mem_erase id st.in_use
  · rw [release_compressor_not_mem st id hm]
    exact release_compressor_not_mem st id hm

theorem claim_C5_witness :
    (3 ∉ cpool1.in_use ∧ release_compressor cpool1 3 = cpool1) ∧
    release_compressor (release_compressor cpool1 3) 3 =
      release_compressor cpool1 3 :=
  ⟨⟨by decide, (claim_C5 cpool1 3).1 (by decide)⟩, (claim_C5 cpool1 3).2⟩

/-- C6: `update_model` blocks (drains) while the in-use set is non-empty; a
call proceeding on a drained pool whose rebuild succeeds replaces the whole
worker collection with workers constructed under the new
`(model identifier, device)` configuration, and every worker acquired by
any subsequent sequence of acquire/release operations is one constructed
with the new configuration. -/
theorem claim_C6 (st : PoolState) (mn dm : Option String) :
    (∀ fails : Nat → Bool, st.in_use ≠ ∅ → update_model fails st mn dm = none) ∧
    (st.in_use = ∅ →
      update_model (fun _ => false) st mn dm =
        some (.ok (rebuilt_state st mn dm)) ∧
      ∀ (es : List Event) (ow : Option PromptCompressor),
        ow ∈ (runSys ⟨rebuilt_state st mn dm, [], []⟩ es).acquired →
        ∃ wk, ow = some wk ∧ wk.model_name = mn.getD st.model_name ∧
          wk.device_map = dm.getD st.device_map) := by
  constructor
  · intro fails hiu
    exact update_model_blocked fails st mn dm hiu
  · intro hiu
    refine ⟨update_model_ok st mn dm hiu, ?_⟩
    intro es ow how
    refine runSys_acquired
      (fun wk => wk.model_name = mn.getD st.model_name ∧
        wk.device_map = dm.getD st.device_map) es
      ⟨rebuilt_state st mn dm, [], []⟩ ?_ ?_ ?_ ow how
    · refine ⟨rebuilt_state_wf st mn dm, List.nodup_nil, ?_, ?_⟩
      · intro i hi
        exact absurd hi (List.not_mem_nil i)
      · intro i hi
        exact absurd hi (Finset.not_mem_empty i)
    · intro wk hwk
      have h := List.eq_of_mem_replicate hwk
      subst h
      exact ⟨rfl, rfl⟩
    · intro ow' how'
      exact absurd how' (List.not_mem_nil ow')

theorem claim_C6_witness :
    (update_model (fun _ => false) cpool1 (some "new") (some "gpu") =
      some (.ok (rebuilt_state cpool1 (some "new") (some "gpu")))) ∧
    (∃ wk, (some (⟨"new", "gpu", true⟩ : PromptCompressor) :
        Option PromptCompressor) = some wk ∧
      wk.model_name = "new" ∧ wk.device_map = "gpu") :=
  ⟨((claim_C6 cpool1 (some "new") (some "gpu")).2 (by decide)).1,
   ((claim_C6 cpool1 (some "new") (some "gpu")).2 (by decide)).2
     [Event.acquire] (some ⟨"new", "gpu", true⟩) (by decide)⟩

/-- C7: `get_status` returns the snapshot dict built from the pool fields;
on any well-formed pool of capacity 4 with exactly 1 slot in use the
invariant forces 3 available, so the snapshot is
`{pool_size: 4, available: 3, in_use: 1}` together with the current
configuration.  (`get_status` is a pure function of the state, so it leaves
the pool unchanged by construction.) -/
theorem claim_C7 (st : PoolState) (hwf : WF st) (hps : st.pool_size = 4)
    (hiu : st.in_use.card = 1) :
    get_status st =
      { pool_size := 4, available := 3, in_use := 1,
        model_name := st.model_name, device_map := st.device_map } := by
  obtain ⟨_, _, hcount, _, _, _⟩ := hwf
  simp only [get_status, Status.mk.injEq, and_true]
  exact ⟨hps, by omega, hiu⟩

theorem claim_C7_witness :
    get_status cpool4 =
      { pool_size := 4, available := 3, in_use := 1,
        model_name := "m", device_map := "cpu" } :=
  claim_C7 cpool4 (by decide) (by decide) (by decide)

/-- C8: on a pool whose available list is empty (and stays so, there being
no concurrent releases) and any timeout `T > 0`, `get_compressor` raises
pool-exhausted at elapsed time `⌈10T⌉/10`, which is no earlier than `T` and
strictly less than `T + 1/10`; the last poll (at one poll interval before
the failure) happens strictly before `T`. -/
theorem claim_C8 (st : PoolState) (timeout : ℚ) (fuel : Nat)
    (hav : st.available = []) (hpos : 0 < timeout)
    (hfuel : ⌈timeout * 10⌉.toNat < fuel) :
    get_compressor st timeout fuel =
      .exhausted st ((⌈timeout * 10⌉ : ℚ) / 10) ∧
    timeout ≤ (⌈timeout * 10⌉ : ℚ) / 10 ∧
    (⌈timeout * 10⌉ : ℚ) / 10 < timeout + 1 / 10 ∧
    (⌈timeout * 10⌉ : ℚ) / 10 - 1 / 10 < timeout := by
  have hceil : (timeout * 10 : ℚ) ≤ (⌈timeout * 10⌉ : ℚ) := Int.le_ceil _
  have hceil2 : ((⌈timeout * 10⌉ : ℤ) : ℚ) < timeout * 10 + 1 :=
    Int.ceil_lt_add_one _
  have hcpos : (0 : ℤ) < ⌈timeout * 10⌉ :=
    Int.ceil_pos.mpr (by linarith)
  refine ⟨?_, ?_, ?_, ?_⟩
  · rw [get_compressor]
    exact get_compressor_loop_empty timeout st hav fuel 0 (by omega)
      (by omega)
  · rw [le_div_iff₀ (by norm_num : (0:ℚ) < 10)]
    linarith
  · rw [div_lt_iff₀ (by norm_num : (0:ℚ) < 10)]
    linarith
  · rw [sub_lt_iff_lt_add, div_lt_iff₀ (by norm_num : (0:ℚ) < 10)]
    linarith

theorem claim_C8_witness :
    get_compressor cpool0 (1/4) 4 =
      .exhausted cpool0 ((⌈(1/4 : ℚ) * 10⌉ : ℚ) / 10) ∧
    (1/4 : ℚ) ≤ (⌈(1/4 : ℚ) * 10⌉ : ℚ) / 10 ∧
    (⌈(1/4 : ℚ) * 10⌉ : ℚ) / 10 < 1/4 + 1/10 ∧
    (⌈(1/4 : ℚ) * 10⌉ : ℚ) / 10 - 1/10 < (1/4 : ℚ) :=
  claim_C8 cpool0 (1/4) 4 rfl (by norm_num) (by
    have h : ⌈(1/4 : ℚ) * 10⌉ = 3 := by norm_num [Int.ceil_eq_iff]
    rw [h]
    norm_num)

/-- C9: for every pool state, including one with available workers,
`get_compressor` with `timeout ≤ 0` raises pool-exhausted immediately (at
elapsed time 0) with the state unchanged: the while-condition
`elapsed < timeout` is false at the very first check, so the loop body —
and with it the inspection of the available list — is never entered. -/
theorem claim_C9 (st : PoolState) (timeout : ℚ) (fuel : Nat)
    (h : timeout ≤ 0) :
    get_compressor st timeout (fuel + 1) = .exhausted st 0 := by
  have hc : ¬ ((0 : ℕ) : ℚ) / 10 < timeout := by
    push_cast
    rw [zero_div]
    intro hlt
    exact absurd (lt_of_lt_of_le hlt h) (lt_irrefl 0)
  rw [get_compressor, get_compressor_loop, if_neg hc]
  norm_num

theorem claim_C9_witness :
    get_compressor cpool1 0 1 = .exhausted cpool1 0 :=
  claim_C9 cpool1 0 0 (le_refl 0)


/-- C10: `build_compression_params` is a total function (it never raises)
and its result contains a parameter key exactly when the corresponding
request field is set and passes its range check: `rate` and
`context_level_rate` must lie in `(0, 1]`; `target_token`,
`target_context_level_rate` and `context_level_target_token` must be
strictly positive; `chunk_end_tokens` must be non-empty.  Out-of-range or
unset values are omitted, never rejected with an error. -/
theorem claim_C10 (r : CompressRequest) :
    (∀ v : ℚ, (build_compression_params r).rate = some v ↔
      r.rate = some v ∧ 0 < v ∧ v ≤ 1) ∧
    (∀ v : ℤ, (build_compression_params r).target_token = some v ↔
      r.target_token = some v ∧ 0 < v) ∧
    (∀ v : ℚ, (build_compression_params r).target_context_level_rate = some v ↔
      r.target_context_level_rate = some v ∧ 0 < v) ∧
    (∀ v : ℚ, (build_compression_params r).context_level_rate = some v ↔
      r.context_level_rate = some v ∧ 0 < v ∧ v ≤ 1) ∧
    (∀ v : ℤ, (build_compression_params r).context_level_target_token = some v ↔
      r.context_level_target_token = some v ∧ 0 < v) ∧
    (∀ v : String, (build_compression_params r).chunk_end_tokens = some v ↔
      r.chunk_end_tokens = some v ∧ v ≠ "") := by
  refine ⟨?_, ?_, ?_, ?_, ?_, ?_⟩
  · intro v
    cases hr : r.rate with
    | none => simp [build_compression_params, hr]
    | some x =>
      simp only [build_compression_params, hr]
      by_cases hx : 0 < x ∧ x ≤ 1
      · rw [if_pos hx]
        constructor
        · intro h
          injection h with h
          subst h
          exact ⟨rfl, hx⟩
        · rintro ⟨h1, h2, h3⟩
          injection h1 with h1
          rw [h1]
      · rw [if_neg hx]
        constructor
        · intro h
          exact absurd h (by simp)
        · rintro ⟨h1, h2, h3⟩
          injection h1 with h1
          subst h1
          exact absurd ⟨h2, h3⟩ hx
  · intro v
    cases hr : r.target_token with
    | none => simp [build_compression_params, hr]
    | some x =>
      simp only [build_compression_params, hr]
      by_cases hx : 0 < x
      · rw [if_pos hx]
        constructor
        · intro h
          injection h with h
          subst h
          exact ⟨rfl, hx⟩
        · rintro ⟨h1, h2⟩
          injection h1 with h1
          rw [h1]
      · rw [if_neg hx]
        constructor
        · intro h
          exact absurd h (by simp)
        · rintro ⟨h1, h2⟩
          injection h1 with h1
          subst h1
          exact absurd h2 hx
  · intro v
    cases hr : r.target_context_level_rate with
    | none => simp [build_compression_params, hr]
    | some x =>
      simp only [build_compression_params, hr]
      by_cases hx : 0 < x
      · rw [if_pos hx]
        constructor
        · intro h
          injection h with h
          subst h
          exact ⟨rfl, hx⟩
        · rintro ⟨h1, h2⟩
          injection h1 with h1
          rw [h1]
      · rw [if_neg hx]
        constructor
        · intro h
          exact absurd h (by simp)
        · rintro ⟨h1, h2⟩
          injection h1 with h1
          subst h1
          exact absurd h2 hx
  · intro v
    cases hr : r.context_level_rate with
    | none => simp [build_compression_params, hr]
    | some x =>
      simp only [build_compression_params, hr]
      by_cases hx : 0 < x ∧ x ≤ 1
      · rw [if_pos hx]
        constructor
        · intro h
          injection h with h
          subst h
          exact ⟨rfl, hx⟩
        · rintro ⟨h1, h2, h3⟩
          injection h1 with h1
          rw [h1]
      · rw [if_neg hx]
        constructor
        · intro h
          exact absurd h (by simp)
        · rintro ⟨h1, h2, h3⟩
          injection h1 with h1
          subst h1
          exact absurd ⟨h2, h3⟩ hx
  · intro v
    cases hr : r.context_level_target_token with
    | none => simp [build_compression_params, hr]
    | some x =>
      simp only [build_compression_params, hr]
      by_cases hx : 0 < x
      · rw [if_pos hx]
        constructor
        · intro h
          injection h with h
          subst h
          exact ⟨rfl, hx⟩
        · rintro ⟨h1, h2⟩
          injection h1 with h1
          rw [h1]
      · rw [if_neg hx]
        constructor
        · intro h
          exact absurd h (by simp)
        · rintro ⟨h1, h2⟩
          injection h1 with h1
          subst h1
          exact absurd h2 hx
  · intro v
    cases hr : r.chunk_end_tokens with
    | none => simp [build_compression_params, hr]
    | some x =>
      simp only [build_compression_params, hr]
      by_cases hx : x ≠ ""
      · rw [if_pos hx]
        constructor
        · intro h
          injection h with h
          subst h
          exact ⟨rfl, hx⟩
        · rintro ⟨h1, h2⟩
          injection h1 with h1
          rw [h1]
      · rw [if_neg hx]
        constructor
        · intro h
          exact absurd h (by simp)
        · rintro ⟨h1, h2⟩
          injection h1 with h1
          subst h1
          exact absurd h2 hx

def creq : CompressRequest :=
  { rate := some (1/2), target_token := some 100,
    target_context_level_rate := some 2, context_level_rate := some 2,
    context_level_target_token := some (-5), chunk_end_tokens := some "" }

theorem claim_C10_witness :
    (build_compression_params creq).rate = some (1/2) ↔
      creq.rate = some (1/2) ∧ 0 < (1/2 : ℚ) ∧ (1/2 : ℚ) ≤ 1 :=
  (claim_C10 creq).1 (1/2)
